import Mathlib

/-!
Verification of the IF-extraction parameter sweep of IF_experiment_cuda.py
against its specification.

Numeric model: Python floats are modelled as exact rationals extended with
the IEEE special values (+inf, -inf, NaN) by the type FVal; values that the
script only ever passes to a square root or a logarithm are modelled in the
real numbers.  External collaborators (wav reading, the spectrogram, the
ridge extraction) are abstracted as oracle parameters of the sweep;
everything computed by the script itself is embedded from the source.
-/

/-- IEEE-style scalar: a finite rational, a signed infinity, or NaN. -/
inductive FVal where
  | fin : ℚ → FVal
  | inf : FVal
  | ninf : FVal
  | nan : FVal
deriving DecidableEq

/-- Strict comparison used by the sweep (Python float lt); any comparison
with NaN is false. -/
def FVal.lt : FVal → FVal → Bool
  | FVal.fin a, FVal.fin b => decide (a < b)
  | FVal.fin _, FVal.inf => true
  | FVal.fin _, FVal.ninf => false
  | FVal.fin _, FVal.nan => false
  | FVal.inf, FVal.fin _ => false
  | FVal.inf, FVal.inf => false
  | FVal.inf, FVal.ninf => false
  | FVal.inf, FVal.nan => false
  | FVal.ninf, FVal.fin _ => true
  | FVal.ninf, FVal.inf => true
  | FVal.ninf, FVal.ninf => false
  | FVal.ninf, FVal.nan => false
  | FVal.nan, FVal.fin _ => false
  | FVal.nan, FVal.inf => false
  | FVal.nan, FVal.ninf => false
  | FVal.nan, FVal.nan => false

/-- Non-strict comparison (Python float le); any comparison with NaN is
false. -/
def FVal.le : FVal → FVal → Bool
  | FVal.fin a, FVal.fin b => decide (a ≤ b)
  | FVal.fin _, FVal.inf => true
  | FVal.fin _, FVal.ninf => false
  | FVal.fin _, FVal.nan => false
  | FVal.inf, FVal.fin _ => false
  | FVal.inf, FVal.inf => true
  | FVal.inf, FVal.ninf => false
  | FVal.inf, FVal.nan => false
  | FVal.ninf, FVal.fin _ => true
  | FVal.ninf, FVal.inf => true
  | FVal.ninf, FVal.ninf => true
  | FVal.ninf, FVal.nan => false
  | FVal.nan, FVal.fin _ => false
  | FVal.nan, FVal.inf => false
  | FVal.nan, FVal.ninf => false
  | FVal.nan, FVal.nan => false

/-- IEEE division of two finite values, as numpy performs it with the
default error state (warn, never raise): x/0 is NaN when x = 0 and a signed
infinity otherwise.  The non-finite operand cases never arise in the
embedded code. -/
def fdiv : FVal → FVal → FVal
  | FVal.fin a, FVal.fin b =>
      if b = 0 then (if a = 0 then FVal.nan else (if 0 < a then FVal.inf else FVal.ninf))
      else FVal.fin (a / b)
  | _, _ => FVal.nan

/-- Sum of squares of a rational list. -/
def sumSq (xs : List ℚ) : ℚ := (xs.map (fun a => a ^ 2)).sum

/-- Mean of a rational list (np.mean); use sites guard the empty case. -/
def listMean (xs : List ℚ) : ℚ := xs.sum / (xs.length : ℚ)

/-- Mean squared deviation of a list about its own mean: the denominator
of Iatsenko_style. -/
def listVar (xs : List ℚ) : ℚ := listMean (xs.map (fun a => (a - listMean xs) ^ 2))

/-- Mean of the squared pointwise differences of two equal-length lists:
the numerator of Iatsenko_style. -/
def sqDiffMean (s1 s2 : List ℚ) : ℚ :=
  listMean (List.zipWith (fun a b => (a - b) ^ 2) s1 s2)

/-- Embedding of Iatsenko_style (IF_experiment_cuda.py lines 98-106):
mean((s1 - s2)^2) / mean((s1 - mean(s1))^2) under a try/except that maps
any raised exception to NaN.  With numpy array inputs the only exception is
a broadcast shape mismatch (modelled by the length guard; the repository
only ever calls it with equal-length curves), and np.mean of an empty
array is NaN; the division itself follows IEEE semantics (fdiv) because
numpy warns rather than raises on divide-by-zero. -/
def Iatsenko_style (s1 s2 : List ℚ) : FVal :=
  if s1.length = 0 ∨ s1.length ≠ s2.length then FVal.nan
  else fdiv (FVal.fin (sqDiffMean s1 s2)) (FVal.fin (listVar s1))

/-- Embedding of Signal_to_noise_Ratio (lines 80-87): returns 0 when the
noise array is empty, else 10 * log10((sum(signal^2)/len(signal)) /
(mean(noise^2)/len(noise))). -/
noncomputable def Signal_to_noise_Ratio (signal noise : List ℚ) : ℝ :=
  if noise.length = 0 then 0
  else 10 * Real.logb 10 ((((sumSq signal : ℚ) : ℝ) / (signal.length : ℝ)) /
      ((((sumSq noise : ℚ) : ℝ) / (noise.length : ℝ)) / (noise.length : ℝ)))

/-- Embedding of np.linalg.norm(v, ord=2): the Euclidean norm of a
vector. -/
noncomputable def pynorm2 (xs : List ℚ) : ℝ := Real.sqrt ((sumSq xs : ℚ) : ℝ)

/-- The L2 measure computed by the sweep at lines 248-249:
norm(tfsupp[0,:] - inst_freq, ord=2) / (shape(TFR)[0] * shape(TFR)[1]). -/
noncomputable def L2_measure (tfsupp0 inst_freq : List ℚ) (d0 d1 : ℕ) : ℝ :=
  pynorm2 (List.zipWith (fun a b => a - b) tfsupp0 inst_freq) / ((d0 : ℝ) * (d1 : ℝ))

/-- Modelled from the spec wording of the L2 metric: the Euclidean norm of
the pointwise (indexwise) difference of the two sequences, normalized by
the total cell count (frequency bins times time frames).  Stated
independently of the source formula so that claim C7 compares the two. -/
noncomputable def L2_spec_model (ext gt : List ℚ) (bins frames : ℕ) : ℝ :=
  Real.sqrt ((((Finset.range ext.length).sum (fun i => (ext.getD i 0 - gt.getD i 0) ^ 2) : ℚ) : ℝ)) /
    ((bins * frames : ℕ) : ℝ)

/-- Embedding of set_if_fun (lines 135-169): dispatches the ground-truth
instantaneous-frequency law on the signal-class string.  pure_tone is the
constant 2000; the exponential chirps are omega_0 * alpha^x with
alpha = (omega_1/omega_0)^(1/T); the linear chirps are omega_0 + c*x with
c = (omega_1 - omega_0)/T.  For an unrecognized identifier the Python
function prints an error and then returns the unbound local if_fun, which
raises; this failure is modelled by none. -/
noncomputable def set_if_fun (signal_id : String) (T : ℝ) : Option (ℝ → ℝ) :=
  if signal_id = "pure_tone" then
    some (fun _ => 2000)
  else if signal_id = "exponential_downchirp" then
    some (fun x => 2000 * ((500 / 2000 : ℝ) ^ ((1 : ℝ) / T)) ^ x)
  else if signal_id = "exponential_upchirp" then
    some (fun x => 500 * ((2000 / 500 : ℝ) ^ ((1 : ℝ) / T)) ^ x)
  else if signal_id = "linear_downchirp" then
    some (fun x => 2000 + ((500 - 2000) / T) * x)
  else if signal_id = "linear_upchirp" then
    some (fun x => 500 + ((2000 - 500) / T) * x)
  else
    none

/-- Evaluate an optional frequency law at one time point. -/
noncomputable def evalAt (t : ℝ) (o : Option (ℝ → ℝ)) : Option ℝ := o.map (fun f => f t)

/-- Evaluate an optional frequency law at the two endpoints 0 and T. -/
noncomputable def evalEnds (T : ℝ) (o : Option (ℝ → ℝ)) : Option (ℝ × ℝ) :=
  o.map (fun f => (f 0, f T))

/-- One grid point of the sweep: a choice of window length, hop fraction,
window type, alpha and beta. -/
structure GridPoint where
  win_len : ℕ
  hop : ℚ
  window_type : String
  alpha : ℚ
  beta : ℚ
deriving DecidableEq

/-- Window lengths enumerated by the sweep (line 194). -/
def win : List ℕ := [32, 64, 128, 256, 1024, 2048, 4096]

/-- Hop fractions enumerated by the sweep (line 195). -/
def hop_perc : List ℚ := [1/10, 1/4, 1/2, 3/4, 9/10]

/-- Window types enumerated by the sweep (line 196). -/
def win_type : List String :=
  ["Hann", "Parzen", "Welch", "Hamming", "Blackman", "BlackmanHarris"]

/-- Alpha values enumerated by the sweep (line 199). -/
def alpha_list : List ℚ := [0, 1/4, 1/2, 1, 2, 4, 6, 8, 10, 15, 20]

/-- Beta values enumerated by the sweep (line 200). -/
def beta_list : List ℚ := [0, 1/4, 1/2, 1, 2, 4, 6, 8, 10, 15, 20]

/-- The full Cartesian product of the parameters in the nested-loop order
of lines 213-217. -/
def grid : List GridPoint :=
  win.flatMap (fun w => hop_perc.flatMap (fun h => win_type.flatMap (fun wt =>
    alpha_list.flatMap (fun a => beta_list.map (fun b => ⟨w, h, wt, a, b⟩)))))

/-- incr = int(win_len * hop) of line 220; the product is nonnegative, so
the int() truncation is the floor (for the enumerated values the binary
floating-point product never crosses an integer boundary, so the exact
rational floor agrees with the float computation). -/
def incrOf (gp : GridPoint) : ℕ := (⌊(gp.win_len : ℚ) * gp.hop⌋).toNat

/-- One data row of find_optimal_parameters_log.csv.  The writerow call at
lines 258-260 supplies only window_width, incr, spec dim and measure;
csv.DictWriter fills the remaining declared columns (window type, alpha,
beta) with its default restval, the empty string, modelled by none. -/
structure Row where
  window_width : ℕ
  incr : ℕ
  window_type : Option String
  alpha : Option ℚ
  beta : Option ℚ
  spec_dim : ℕ
  measure : FVal
deriving DecidableEq

/-- One line of the log file: the header (written once at lines 209-211)
or a data row. -/
inductive LogLine where
  | header : LogLine
  | row : Row → LogLine
deriving DecidableEq

/-- State carried by the sweep loop: the log-file contents, the number of
grid points whose external processing stage was entered, the running best
value opt (initialized to np.Inf at line 202), and the two fields the
update branch actually stores into opt_param (lines 266-267 write the
keys win_len and hop; the five keys initialized at line 203 are never
updated). -/
structure SweepState where
  file : List LogLine
  evaluated : ℕ
  opt : FVal
  opt_win_len : Option ℕ
  opt_hop : Option ℕ
deriving DecidableEq

/-- State right after the header has been written (lines 202-211). -/
def initState : SweepState :=
  { file := [LogLine.header], evaluated := 0, opt := FVal.inf,
    opt_win_len := none, opt_hop := none }

/-- The data row written for one grid point (lines 256-260), given the
spectrogram shape d and the measure m. -/
def mkRow (gp : GridPoint) (d : ℕ × ℕ) (m : FVal) : Row :=
  { window_width := gp.win_len, incr := incrOf gp, window_type := none,
    alpha := none, beta := none, spec_dim := d.1 * d.2, measure := m }

/-- One iteration of the innermost loop body (lines 219-267) at grid point
gp.  The oracle ev1 abstracts the external calls of lines 222-242
(readWav, spectrogram, IF.ecurve): it returns the spectrogram shape, or
the exception such a call raised, which the loop body does not catch.
The oracle ev2 abstracts the value measure2check of lines 248-254 for
this grid point.  set_if_fun is called per grid point (line 245), after
the external stage and before the row write and the best-so-far
comparison; with an unrecognized signal id it fails there. -/
noncomputable def gridStep (signal_id : String) (T : ℝ)
    (ev1 : GridPoint → Except String (ℕ × ℕ)) (ev2 : GridPoint → FVal)
    (st : SweepState) (gp : GridPoint) : SweepState × Option String :=
  match ev1 gp with
  | Except.error e => ({ st with evaluated := st.evaluated + 1 }, some e)
  | Except.ok d =>
    match set_if_fun signal_id T with
    | none =>
        ({ st with evaluated := st.evaluated + 1 },
          some "UnboundLocalError: local variable if_fun referenced before assignment")
    | some _ =>
      let m := ev2 gp
      let st1 : SweepState :=
        { st with evaluated := st.evaluated + 1,
                  file := st.file ++ [LogLine.row (mkRow gp d m)] }
      if FVal.lt m st1.opt then
        ({ st1 with opt := m, opt_win_len := some gp.win_len,
                    opt_hop := some (incrOf gp) }, none)
      else (st1, none)

/-- Run the sweep loop from a given state over a list of grid points,
stopping at the first uncaught exception and returning the state reached
together with the exception, if any. -/
noncomputable def runSweepAux (signal_id : String) (T : ℝ)
    (ev1 : GridPoint → Except String (ℕ × ℕ)) (ev2 : GridPoint → FVal) :
    List GridPoint → SweepState → SweepState × Option String
  | [], st => (st, none)
  | gp :: rest, st =>
    match gridStep signal_id T ev1 ev2 st gp with
    | (st1, none) => runSweepAux signal_id T ev1 ev2 rest st1
    | (st1, some e) => (st1, some e)

/-- The whole sweep of find_optimal_spec_IF_parameters after the header
is written, over an enumeration order given as a list (the source fixes
it to grid). -/
noncomputable def runSweep (signal_id : String) (T : ℝ)
    (ev1 : GridPoint → Except String (ℕ × ℕ)) (ev2 : GridPoint → FVal)
    (gps : List GridPoint) : SweepState × Option String :=
  runSweepAux signal_id T ev1 ev2 gps initState

/-- Embedding of find_optimal_spec_IF_parameters (lines 171-274): write
the header, run the sweep, then execute the return statement of line 274.
That statement references window_length_opt, incr_opt, window_type_opt,
alpha_opt and beta_opt, none of which is ever assigned anywhere in the
function, so a completed sweep always ends in a NameError instead of
returning the optimal parameter tuple. -/
noncomputable def find_optimal_spec_IF_parameters (signal_id : String) (T : ℝ)
    (ev1 : GridPoint → Except String (ℕ × ℕ)) (ev2 : GridPoint → FVal)
    (gps : List GridPoint) :
    SweepState × Except String (ℕ × ℕ × String × ℚ × ℚ) :=
  match runSweep signal_id T ev1 ev2 gps with
  | (st, some e) => (st, Except.error e)
  | (st, none) =>
      (st, Except.error "NameError: name window_length_opt is not defined")

/-- The update of the running best opt (lines 262-265): replaced exactly
when the new measure compares strictly below it. -/
def optStep (a m : FVal) : FVal := if FVal.lt m a then m else a

/-- The running best value after a list of measures, starting from
np.Inf. -/
def foldOpt (ms : List FVal) : FVal := ms.foldl optStep FVal.inf

/-- Predicate used to express minimality over the comparable (non-NaN)
measures seen so far. -/
def leOrNan (b m : FVal) : Bool := decide (m = FVal.nan) || FVal.le b m

/- Concrete inputs used by the closed counterexamples and witnesses. -/

/-- The constant frequency law produced for pure_tone. -/
noncomputable def pureToneFun : ℝ → ℝ := fun _ => 2000

/-- Concrete grid point (32, 0.1, Hann, 0, 0); its incr is 3. -/
def gpA : GridPoint := ⟨32, 1/10, "Hann", 0, 0⟩

/-- Concrete grid point (32, 0.25, Hann, 0, 0); its incr is 8. -/
def gpB : GridPoint := ⟨32, 1/4, "Hann", 0, 0⟩

/-- Concrete grid point (64, 0.1, Hann, 0, 0), used as the point whose
external stage raises. -/
def gpC : GridPoint := ⟨64, 1/10, "Hann", 0, 0⟩

/-- Concrete external oracle: every spectrogram has shape 2 x 3. -/
def cEv1 : GridPoint → Except String (ℕ × ℕ) := fun _ => Except.ok (2, 3)

/-- Concrete metric oracle: every measure is 1. -/
def cEv2 : GridPoint → FVal := fun _ => FVal.fin 1

/-- External oracle that raises on window length 64 (a malformed
extraction) and succeeds elsewhere. -/
def mixEv1 : GridPoint → Except String (ℕ × ℕ) :=
  fun gp => if gp.win_len = 64 then Except.error "ValueError: malformed extraction output"
            else Except.ok (2, 3)

/-- Metric oracle that yields NaN everywhere. -/
def nanEv2 : GridPoint → FVal := fun _ => FVal.nan

/- Helper lemmas about the rational list operations. -/

lemma fdiv_fin (a b : ℚ) :
    fdiv (FVal.fin a) (FVal.fin b) =
      (if b = 0 then (if a = 0 then FVal.nan else (if 0 < a then FVal.inf else FVal.ninf))
       else FVal.fin (a / b)) := rfl

lemma sumSq_cons (a : ℚ) (xs : List ℚ) : sumSq (a :: xs) = a ^ 2 + sumSq xs := by
  simp [sumSq]

lemma zipWith_sq_sum_nonneg (s1 : List ℚ) :
    ∀ s2 : List ℚ, 0 ≤ (List.zipWith (fun a b => (a - b) ^ 2) s1 s2).sum := by
  induction s1 with
  | nil => intro s2; simp
  | cons a t ih =>
      intro s2
      cases s2 with
      | nil => simp
      | cons b t2 =>
          simp only [List.zipWith_cons_cons, List.sum_cons]
          have h1 : (0 : ℚ) ≤ (a - b) ^ 2 := sq_nonneg _
          exact add_nonneg h1 (ih t2)

lemma sqDiffMean_nonneg (s1 s2 : List ℚ) : 0 ≤ sqDiffMean s1 s2 := by
  unfold sqDiffMean listMean
  exact div_nonneg (zipWith_sq_sum_nonneg s1 s2) (by positivity)

lemma zipWith_sub_self_sumSq (s : List ℚ) :
    sumSq (List.zipWith (fun a b => a - b) s s) = 0 := by
  induction s with
  | nil => simp [sumSq]
  | cons a t ih =>
      rw [List.zipWith_cons_cons, sumSq_cons, ih]
      ring

lemma sqDiffMean_self (s : List ℚ) : sqDiffMean s s = 0 := by
  unfold sqDiffMean listMean
  have h : (List.zipWith (fun a b => (a - b) ^ 2) s s).sum = 0 := by
    induction s with
    | nil => simp
    | cons a t ih =>
        rw [List.zipWith_cons_cons, List.sum_cons, ih]
        ring
  rw [h, zero_div]

lemma sumSq_zipWith_eq_range (ext : List ℚ) :
    ∀ gt : List ℚ, ext.length = gt.length →
      sumSq (List.zipWith (fun a b => a - b) ext gt) =
        (Finset.range ext.length).sum (fun i => (ext.getD i 0 - gt.getD i 0) ^ 2) := by
  induction ext with
  | nil => intro gt h; simp [sumSq]
  | cons a t ih =>
      intro gt h
      cases gt with
      | nil => simp at h
      | cons b t2 =>
          have ht : t.length = t2.length := by simpa using h
          simp only [List.zipWith_cons_cons, sumSq_cons, List.length_cons]
          rw [Finset.sum_range_succ']
          simp only [List.getD_cons_succ, List.getD_cons_zero]
          rw [ih t2 ht]
          ring

/-- Claim C3 counterexample: the reference curve [1, 1] has zero variance
about its own mean, yet the Iatsenko metric against [0, 0] evaluates to
positive infinity, not NaN: numpy divides the positive numerator by zero
and yields inf with a warning. -/
theorem c3_counterexample :
    listVar [1, 1] = 0 ∧ Iatsenko_style [1, 1] [0, 0] = FVal.inf := by
  have hvar : listVar [1, 1] = 0 := by norm_num [listVar, listMean]
  have hnum : sqDiffMean [1, 1] [0, 0] = 1 := by
    norm_num [sqDiffMean, listMean]
  refine ⟨hvar, ?_⟩
  unfold Iatsenko_style
  rw [if_neg (by norm_num), fdiv_fin, hvar, hnum]
  norm_num

/-- Claim C3, amended: on equal-length inputs whose reference sequence has
zero variance, Iatsenko_style never raises and returns a non-finite IEEE
value: NaN when the mean squared difference is also zero, and positive
infinity otherwise. -/
theorem c3_amended (s1 s2 : List ℚ) (h : s1.length = s2.length)
    (hne : s1.length ≠ 0) (hvar : listVar s1 = 0) :
    Iatsenko_style s1 s2 =
      (if sqDiffMean s1 s2 = 0 then FVal.nan else FVal.inf) := by
  have hguard : ¬ (s1.length = 0 ∨ s1.length ≠ s2.length) := by
    push_neg
    exact ⟨hne, h⟩
  unfold Iatsenko_style
  rw [if_neg hguard, fdiv_fin, hvar, if_pos rfl]
  by_cases hz : sqDiffMean s1 s2 = 0
  · rw [if_pos hz, if_pos hz]
  · rw [if_neg hz, if_neg hz, if_pos]
    exact lt_of_le_of_ne (sqDiffMean_nonneg s1 s2) (Ne.symm hz)

/-- Witness for c3_amended at s1 = [1,1], s2 = [0,0]. -/
theorem c3_amended_witness :
    ([1, 1] : List ℚ).length = ([0, 0] : List ℚ).length ∧
    ([1, 1] : List ℚ).length ≠ 0 ∧
    listVar [1, 1] = 0 ∧
    Iatsenko_style [1, 1] [0, 0] =
      (if sqDiffMean [1, 1] [0, 0] = 0 then FVal.nan else FVal.inf) :=
  ⟨rfl, by norm_num, by norm_num [listVar, listMean],
    c3_amended [1, 1] [0, 0] rfl (by norm_num) (by norm_num [listVar, listMean])⟩

/-- Claim C7: on equal-length curves the L2 measure computed by the sweep
equals the Euclidean norm of the pointwise difference divided by the total
spectrogram cell count, as the spec words it. -/
theorem c7_l2_refinement (ext gt : List ℚ) (d0 d1 : ℕ)
    (h : ext.length = gt.length) :
    L2_measure ext gt d0 d1 = L2_spec_model ext gt d0 d1 := by
  unfold L2_measure L2_spec_model pynorm2
  rw [sumSq_zipWith_eq_range ext gt h, Nat.cast_mul]

/-- Witness for c7_l2_refinement at ext = [1,2], gt = [3,5], dims 2 x 3. -/
theorem c7_l2_refinement_witness :
    ([1, 2] : List ℚ).length = ([3, 5] : List ℚ).length ∧
    L2_measure [1, 2] [3, 5] 2 3 = L2_spec_model [1, 2] [3, 5] 2 3 :=
  ⟨rfl, c7_l2_refinement [1, 2] [3, 5] 2 3 rfl⟩

/-- Claim C8: the L2 measure of any curve against itself is exactly 0, and
the Iatsenko metric of a curve against itself is exactly 0 whenever the
variance of the curve about its own mean is strictly positive. -/
theorem c8_self_distance (s : List ℚ) (d0 d1 : ℕ) :
    L2_measure s s d0 d1 = 0 ∧
    (0 < listVar s → Iatsenko_style s s = FVal.fin 0) := by
  constructor
  · unfold L2_measure pynorm2
    rw [zipWith_sub_self_sumSq]
    simp
  · intro hvar
    have hlen : s.length ≠ 0 := by
      intro h0
      have hnil : s = [] := List.length_eq_zero.mp h0
      rw [hnil] at hvar
      have hz : listVar ([] : List ℚ) = 0 := by norm_num [listVar, listMean]
      rw [hz] at hvar
      exact lt_irrefl 0 hvar
    have hguard : ¬ (s.length = 0 ∨ s.length ≠ s.length) := by
      push_neg
      exact ⟨hlen, rfl⟩
    unfold Iatsenko_style
    rw [if_neg hguard, sqDiffMean_self, fdiv_fin, if_neg (ne_of_gt hvar), zero_div]

/-- Witness for c8_self_distance at s = [0,1] (variance 1/4). -/
theorem c8_self_distance_witness :
    (0 : ℚ) < listVar [0, 1] ∧
    L2_measure [0, 1] [0, 1] 2 3 = 0 ∧
    Iatsenko_style [0, 1] [0, 1] = FVal.fin 0 :=
  ⟨by norm_num [listVar, listMean], (c8_self_distance [0, 1] 2 3).1,
    (c8_self_distance [0, 1] 2 3).2 (by norm_num [listVar, listMean])⟩

/-- Claim C6: for every duration T > 0 the ground-truth IF law of each of
the five recognized signal classes hits exactly the configured endpoint
frequencies: pure_tone is constantly 2000 at every time t; the exponential
and linear downchirps run from f(0) = 2000 to f(T) = 500; the exponential
and linear upchirps run from f(0) = 500 to f(T) = 2000. -/
theorem c6_endpoint_frequencies (T t : ℝ) (hT : 0 < T) :
    evalAt t (set_if_fun "pure_tone" T) = some 2000 ∧
    evalEnds T (set_if_fun "exponential_downchirp" T) = some (2000, 500) ∧
    evalEnds T (set_if_fun "exponential_upchirp" T) = some (500, 2000) ∧
    evalEnds T (set_if_fun "linear_downchirp" T) = some (2000, 500) ∧
    evalEnds T (set_if_fun "linear_upchirp" T) = some (500, 2000) := by
  have hT0 : T ≠ 0 := ne_of_gt hT
  refine ⟨rfl, ?_, ?_, ?_, ?_⟩
  · have h2 : set_if_fun "exponential_downchirp" T
        = some (fun x => 2000 * ((500 / 2000 : ℝ) ^ ((1 : ℝ) / T)) ^ x) := rfl
    rw [h2]
    unfold evalEnds
    simp only [Option.map_some']
    refine congrArg some (Prod.ext ?_ ?_)
    · simp [Real.rpow_zero]
    · show (2000 : ℝ) * ((500 / 2000 : ℝ) ^ ((1 : ℝ) / T)) ^ T = 500
      rw [← Real.rpow_mul (by norm_num), one_div_mul_cancel hT0, Real.rpow_one]
      norm_num
  · have h2 : set_if_fun "exponential_upchirp" T
        = some (fun x => 500 * ((2000 / 500 : ℝ) ^ ((1 : ℝ) / T)) ^ x) := rfl
    rw [h2]
    unfold evalEnds
    simp only [Option.map_some']
    refine congrArg some (Prod.ext ?_ ?_)
    · simp [Real.rpow_zero]
    · show (500 : ℝ) * ((2000 / 500 : ℝ) ^ ((1 : ℝ) / T)) ^ T = 2000
      rw [← Real.rpow_mul (by norm_num), one_div_mul_cancel hT0, Real.rpow_one]
      norm_num
  · have h2 : set_if_fun "linear_downchirp" T
        = some (fun x => 2000 + ((500 - 2000) / T) * x) := rfl
    rw [h2]
    unfold evalEnds
    simp only [Option.map_some']
    refine congrArg some (Prod.ext ?_ ?_)
    · norm_num
    · show (2000 : ℝ) + ((500 - 2000) / T) * T = 500
      rw [div_mul_cancel₀ _ hT0]
      norm_num
  · have h2 : set_if_fun "linear_upchirp" T
        = some (fun x => 500 + ((2000 - 500) / T) * x) := rfl
    rw [h2]
    unfold evalEnds
    simp only [Option.map_some']
    refine congrArg some (Prod.ext ?_ ?_)
    · norm_num
    · show (500 : ℝ) + ((2000 - 500) / T) * T = 2000
      rw [div_mul_cancel₀ _ hT0]
      norm_num

/-- Witness for c6_endpoint_frequencies at T = 1, t = 0. -/
theorem c6_endpoint_frequencies_witness :
    (0 : ℝ) < 1 ∧
    (evalAt 0 (set_if_fun "pure_tone" 1) = some 2000 ∧
     evalEnds 1 (set_if_fun "exponential_downchirp" 1) = some (2000, 500) ∧
     evalEnds 1 (set_if_fun "exponential_upchirp" 1) = some (500, 2000) ∧
     evalEnds 1 (set_if_fun "linear_downchirp" 1) = some (2000, 500) ∧
     evalEnds 1 (set_if_fun "linear_upchirp" 1) = some (500, 2000)) :=
  ⟨one_pos, c6_endpoint_frequencies 1 0 one_pos⟩

/-- Claim C10: Signal_to_noise_Ratio with an empty noise array returns
exactly 0 via its explicit empty-noise branch, instead of dividing or
averaging over zero elements. -/
theorem c10_snr_empty_noise (signal : List ℚ) :
    Signal_to_noise_Ratio signal [] = 0 := by
  unfold Signal_to_noise_Ratio
  simp

/- Order facts about FVal needed for the running-minimum invariant. -/

lemma flt_nan_left (x : FVal) : FVal.lt FVal.nan x = false := by
  cases x <;> rfl

lemma flt_nan_right (x : FVal) : FVal.lt x FVal.nan = false := by
  cases x <;> rfl

lemma flt_ne_nan_left {a b : FVal} (h : FVal.lt a b = true) : a ≠ FVal.nan := by
  intro ha
  rw [ha, flt_nan_left] at h
  exact Bool.false_ne_true h

lemma fle_refl {a : FVal} (ha : a ≠ FVal.nan) : FVal.le a a = true := by
  cases a with
  | fin q => simp [FVal.le]
  | inf => rfl
  | ninf => rfl
  | nan => exact absurd rfl ha

lemma fle_of_flt {a b : FVal} (h : FVal.lt a b = true) : FVal.le a b = true := by
  cases a <;> cases b <;>
    simp_all only [FVal.lt, FVal.le, decide_eq_true_eq] <;>
    exact le_of_lt h

lemma fle_of_not_flt {a b : FVal} (ha : a ≠ FVal.nan) (hb : b ≠ FVal.nan)
    (h : FVal.lt a b = false) : FVal.le b a = true := by
  cases a <;> cases b <;>
    simp_all only [FVal.lt, FVal.le, decide_eq_true_eq, decide_eq_false_iff_not,
      ne_eq, not_false_eq_true, not_true_eq_false] <;>
    exact le_of_not_lt h

lemma fle_trans {a b c : FVal} (h1 : FVal.le a b = true) (h2 : FVal.le b c = true) :
    FVal.le a c = true := by
  cases a <;> cases b <;> cases c <;>
    simp_all only [FVal.le, decide_eq_true_eq, Bool.false_eq_true] <;>
    exact le_trans h1 h2

lemma optStep_ne_nan {a : FVal} (m : FVal) (ha : a ≠ FVal.nan) :
    optStep a m ≠ FVal.nan := by
  unfold optStep
  by_cases h : FVal.lt m a = true
  · rw [if_pos h]
    exact flt_ne_nan_left h
  · rw [if_neg h]
    exact ha

lemma optStep_le_left {a : FVal} (m : FVal) (ha : a ≠ FVal.nan) :
    FVal.le (optStep a m) a = true := by
  unfold optStep
  by_cases h : FVal.lt m a = true
  · rw [if_pos h]
    exact fle_of_flt h
  · rw [if_neg h]
    exact fle_refl ha

lemma optStep_le_right {a : FVal} (m : FVal) (ha : a ≠ FVal.nan) (hm : m ≠ FVal.nan) :
    FVal.le (optStep a m) m = true := by
  unfold optStep
  by_cases h : FVal.lt m a = true
  · rw [if_pos h]
    exact fle_refl hm
  · rw [if_neg h]
    have hfalse : FVal.lt m a = false := by
      revert h
      cases FVal.lt m a <;> simp
    exact fle_of_not_flt hm ha hfalse

lemma foldl_optStep_ne_nan (ms : List FVal) :
    ∀ a : FVal, a ≠ FVal.nan → ms.foldl optStep a ≠ FVal.nan := by
  induction ms with
  | nil => intro a ha; simpa using ha
  | cons m rest ih =>
      intro a ha
      rw [List.foldl_cons]
      exact ih (optStep a m) (optStep_ne_nan m ha)

lemma foldl_optStep_le_init (ms : List FVal) :
    ∀ a : FVal, a ≠ FVal.nan → FVal.le (ms.foldl optStep a) a = true := by
  induction ms with
  | nil => intro a ha; exact fle_refl ha
  | cons m rest ih =>
      intro a ha
      rw [List.foldl_cons]
      exact fle_trans (ih (optStep a m) (optStep_ne_nan m ha)) (optStep_le_left m ha)

lemma foldl_optStep_le_mem (ms : List FVal) :
    ∀ a m : FVal, a ≠ FVal.nan → m ∈ ms → m ≠ FVal.nan →
      FVal.le (ms.foldl optStep a) m = true := by
  induction ms with
  | nil => intro a m _ hm _; exact absurd hm (List.not_mem_nil m)
  | cons m0 rest ih =>
      intro a m ha hm hmn
      rw [List.foldl_cons]
      rcases List.mem_cons.mp hm with hcase | hcase
      · subst hcase
        exact fle_trans (foldl_optStep_le_init rest (optStep a m) (optStep_ne_nan m ha))
          (optStep_le_right m ha hmn)
      · exact ih (optStep a m0) m (optStep_ne_nan m0 ha) hcase hmn

lemma foldl_optStep_mem (ms : List FVal) :
    ∀ a : FVal, ms.foldl optStep a = a ∨ ms.foldl optStep a ∈ ms := by
  induction ms with
  | nil => intro a; exact Or.inl rfl
  | cons m0 rest ih =>
      intro a
      rw [List.foldl_cons]
      rcases ih (optStep a m0) with hcase | hcase
      · rw [hcase]
        unfold optStep
        by_cases h : FVal.lt m0 a = true
        · rw [if_pos h]
          exact Or.inr (List.mem_cons_self m0 rest)
        · rw [if_neg h]
          exact Or.inl rfl
      · exact Or.inr (List.mem_cons_of_mem m0 hcase)

lemma foldOpt_ne_nan (ms : List FVal) : foldOpt ms ≠ FVal.nan :=
  foldl_optStep_ne_nan ms FVal.inf (by simp)

lemma foldOpt_append (ms : List FVal) (m : FVal) :
    foldOpt (ms ++ [m]) = optStep (foldOpt ms) m := by
  unfold foldOpt
  rw [List.foldl_append]
  rfl

/- Characterization of one loop iteration and of the loop runner. -/

lemma set_if_fun_eq_none {signal_id : String} (T : ℝ)
    (h : signal_id ∉ ["pure_tone", "exponential_downchirp", "exponential_upchirp",
        "linear_downchirp", "linear_upchirp"]) :
    set_if_fun signal_id T = none := by
  simp only [List.mem_cons, List.not_mem_nil, or_false, not_or] at h
  obtain ⟨h1, h2, h3, h4, h5⟩ := h
  unfold set_if_fun
  rw [if_neg h1, if_neg h2, if_neg h3, if_neg h4, if_neg h5]

lemma gridStep_err (signal_id : String) (T : ℝ)
    (ev1 : GridPoint → Except String (ℕ × ℕ)) (ev2 : GridPoint → FVal)
    (st : SweepState) (gp : GridPoint) (e : String)
    (hev : ev1 gp = Except.error e) :
    gridStep signal_id T ev1 ev2 st gp =
      ({ st with evaluated := st.evaluated + 1 }, some e) := by
  unfold gridStep
  rw [hev]

lemma gridStep_unknown (signal_id : String) (T : ℝ)
    (ev1 : GridPoint → Except String (ℕ × ℕ)) (ev2 : GridPoint → FVal)
    (st : SweepState) (gp : GridPoint) (d : ℕ × ℕ)
    (hev : ev1 gp = Except.ok d) (hnone : set_if_fun signal_id T = none) :
    gridStep signal_id T ev1 ev2 st gp =
      ({ st with evaluated := st.evaluated + 1 },
        some "UnboundLocalError: local variable if_fun referenced before assignment") := by
  unfold gridStep
  rw [hev, hnone]

lemma gridStep_ok (signal_id : String) (T : ℝ) (f : ℝ → ℝ)
    (ev1 : GridPoint → Except String (ℕ × ℕ)) (ev2 : GridPoint → FVal)
    (st : SweepState) (gp : GridPoint) (d : ℕ × ℕ)
    (hif : set_if_fun signal_id T = some f) (hev : ev1 gp = Except.ok d) :
    gridStep signal_id T ev1 ev2 st gp =
      ({ file := st.file ++ [LogLine.row (mkRow gp d (ev2 gp))],
         evaluated := st.evaluated + 1,
         opt := optStep st.opt (ev2 gp),
         opt_win_len :=
           if FVal.lt (ev2 gp) st.opt then some gp.win_len else st.opt_win_len,
         opt_hop :=
           if FVal.lt (ev2 gp) st.opt then some (incrOf gp) else st.opt_hop },
       none) := by
  unfold gridStep optStep
  rw [hev, hif]
  by_cases hlt : FVal.lt (ev2 gp) st.opt = true
  · simp only [hlt, if_true]
  · simp only [hlt, if_false, Bool.false_eq_true, ite_false]

lemma runSweepAux_cons_err {signal_id : String} {T : ℝ}
    {ev1 : GridPoint → Except String (ℕ × ℕ)} {ev2 : GridPoint → FVal}
    {st st1 : SweepState} {gp : GridPoint} {rest : List GridPoint} {e : String}
    (h : gridStep signal_id T ev1 ev2 st gp = (st1, some e)) :
    runSweepAux signal_id T ev1 ev2 (gp :: rest) st = (st1, some e) := by
  unfold runSweepAux
  rw [h]

lemma runSweepAux_cons_ok {signal_id : String} {T : ℝ}
    {ev1 : GridPoint → Except String (ℕ × ℕ)} {ev2 : GridPoint → FVal}
    {st st1 : SweepState} {gp : GridPoint} {rest : List GridPoint}
    (h : gridStep signal_id T ev1 ev2 st gp = (st1, none)) :
    runSweepAux signal_id T ev1 ev2 (gp :: rest) st =
      runSweepAux signal_id T ev1 ev2 rest st1 := by
  conv_lhs => unfold runSweepAux
  rw [h]

lemma runSweepAux_opt (signal_id : String) (T : ℝ) (f : ℝ → ℝ)
    (ev1 : GridPoint → Except String (ℕ × ℕ)) (ev2 : GridPoint → FVal)
    (hif : set_if_fun signal_id T = some f) :
    ∀ (gps : List GridPoint) (st : SweepState),
      (runSweepAux signal_id T ev1 ev2 gps st).2 = none →
      (runSweepAux signal_id T ev1 ev2 gps st).1.opt =
        (gps.map ev2).foldl optStep st.opt := by
  intro gps
  induction gps with
  | nil => intro st _; rfl
  | cons gp rest ih =>
      intro st hok
      cases hev : ev1 gp with
      | error e =>
          rw [runSweepAux_cons_err (gridStep_err signal_id T ev1 ev2 st gp e hev)] at hok
          simp at hok
      | ok d =>
          have hg := gridStep_ok signal_id T f ev1 ev2 st gp d hif hev
          rw [runSweepAux_cons_ok hg] at hok ⊢
          rw [List.map_cons, List.foldl_cons]
          exact ih _ hok

lemma runSweepAux_append (signal_id : String) (T : ℝ)
    (ev1 : GridPoint → Except String (ℕ × ℕ)) (ev2 : GridPoint → FVal) :
    ∀ (l1 l2 : List GridPoint) (st : SweepState),
      runSweepAux signal_id T ev1 ev2 (l1 ++ l2) st =
        (match runSweepAux signal_id T ev1 ev2 l1 st with
         | (st1, none) => runSweepAux signal_id T ev1 ev2 l2 st1
         | (st1, some e) => (st1, some e)) := by
  intro l1
  induction l1 with
  | nil => intro l2 st; rfl
  | cons gp rest ih =>
      intro l2 st
      rcases hg : gridStep signal_id T ev1 ev2 st gp with ⟨st1, e1⟩
      cases e1 with
      | none =>
          rw [List.cons_append, runSweepAux_cons_ok hg, runSweepAux_cons_ok hg, ih]
      | some e =>
          rw [List.cons_append, runSweepAux_cons_err hg, runSweepAux_cons_err hg]

/-- Claim C1: the sweep completes on this input, yet the function ends in
a NameError instead of returning the minimizing parameter tuple, because
the names in the return statement of line 274 are never assigned. -/
theorem c1_broken_return :
    (runSweep "pure_tone" 1 cEv1 cEv2 [gpA, gpB]).2 = none ∧
    (find_optimal_spec_IF_parameters "pure_tone" 1 cEv1 cEv2 [gpA, gpB]).2 =
      Except.error "NameError: name window_length_opt is not defined" :=
  ⟨rfl, rfl⟩

/-- Claim C2 counterexample: with the unrecognized class unknown_class the
run does start: the header is written and the first grid point enters its
external stage (evaluated = 1, not 0) before set_if_fun fails; only the
failure message and the header-only log match the claim. -/
theorem c2_counterexample :
    (runSweep "unknown_class" 1 cEv1 cEv2 [gpA, gpB]).1.evaluated = 1 ∧
    (runSweep "unknown_class" 1 cEv1 cEv2 [gpA, gpB]).1.file = [LogLine.header] ∧
    (runSweep "unknown_class" 1 cEv1 cEv2 [gpA, gpB]).2 =
      some "UnboundLocalError: local variable if_fun referenced before assignment" :=
  ⟨rfl, rfl, rfl⟩

/-- Claim C2, amended: with a signal class outside the five recognized
ones the sweep fails while processing its FIRST grid point - after the
header is written and that point enters the external stage - so no data
row is written, no measure is compared (opt stays np.Inf), and no further
grid point is evaluated. -/
theorem c2_amended (signal_id : String) (T : ℝ)
    (ev1 : GridPoint → Except String (ℕ × ℕ)) (ev2 : GridPoint → FVal)
    (gp : GridPoint) (rest : List GridPoint)
    (hid : signal_id ∉ ["pure_tone", "exponential_downchirp",
        "exponential_upchirp", "linear_downchirp", "linear_upchirp"]) :
    (runSweep signal_id T ev1 ev2 (gp :: rest)).2.isSome = true ∧
    (runSweep signal_id T ev1 ev2 (gp :: rest)).1.file = [LogLine.header] ∧
    (runSweep signal_id T ev1 ev2 (gp :: rest)).1.evaluated = 1 ∧
    (runSweep signal_id T ev1 ev2 (gp :: rest)).1.opt = FVal.inf := by
  have hnone := set_if_fun_eq_none T hid
  unfold runSweep
  cases hev : ev1 gp with
  | error e =>
      rw [runSweepAux_cons_err (gridStep_err signal_id T ev1 ev2 initState gp e hev)]
      exact ⟨rfl, rfl, rfl, rfl⟩
  | ok d =>
      rw [runSweepAux_cons_err
        (gridStep_unknown signal_id T ev1 ev2 initState gp d hev hnone)]
      exact ⟨rfl, rfl, rfl, rfl⟩

/-- Witness for c2_amended at unknown_class with a two-point grid. -/
theorem c2_amended_witness :
    ("unknown_class" ∉ ["pure_tone", "exponential_downchirp",
        "exponential_upchirp", "linear_downchirp", "linear_upchirp"]) ∧
    ((runSweep "unknown_class" 1 cEv1 cEv2 (gpA :: [gpB])).2.isSome = true ∧
     (runSweep "unknown_class" 1 cEv1 cEv2 (gpA :: [gpB])).1.file = [LogLine.header] ∧
     (runSweep "unknown_class" 1 cEv1 cEv2 (gpA :: [gpB])).1.evaluated = 1 ∧
     (runSweep "unknown_class" 1 cEv1 cEv2 (gpA :: [gpB])).1.opt = FVal.inf) :=
  ⟨by decide, c2_amended "unknown_class" 1 cEv1 cEv2 gpA [gpB] (by decide)⟩

/-- Claim C4: a completed sweep logs the header once followed by exactly
one data row per grid point, but each data row carries only window_width,
incr, spec dim and measure: the window type, alpha and beta columns stay
empty (none), because the writerow dictionary omits them. -/
theorem c4_log_rows :
    (runSweep "pure_tone" 1 cEv1 cEv2 [gpA, gpB]).1.file =
      [LogLine.header, LogLine.row (mkRow gpA (2, 3) (FVal.fin 1)),
       LogLine.row (mkRow gpB (2, 3) (FVal.fin 1))] ∧
    (mkRow gpA (2, 3) (FVal.fin 1)).window_type = none ∧
    (mkRow gpA (2, 3) (FVal.fin 1)).alpha = none ∧
    (mkRow gpA (2, 3) (FVal.fin 1)).beta = none ∧
    (mkRow gpA (2, 3) (FVal.fin 1)).window_width = 32 ∧
    (mkRow gpA (2, 3) (FVal.fin 1)).incr = 3 ∧
    (mkRow gpA (2, 3) (FVal.fin 1)).spec_dim = 6 ∧
    (mkRow gpA (2, 3) (FVal.fin 1)).measure = FVal.fin 1 := by
  have hincr : incrOf gpA = 3 := by
    unfold incrOf
    have hfl : ⌊((gpA.win_len : ℚ)) * gpA.hop⌋ = 3 := by norm_num [gpA]
    rw [hfl]
    rfl
  exact ⟨rfl, rfl, rfl, rfl, rfl, hincr, rfl, rfl⟩

/-- Claim C5 counterexample: when the external stage of the first grid
point raises, the sweep aborts at once: the error propagates, the failed
point is not recorded as NaN (the log still holds only the header) and
the remaining grid point is never processed. -/
theorem c5_counterexample :
    (runSweep "pure_tone" 1 mixEv1 cEv2 [gpC, gpA]).2 =
      some "ValueError: malformed extraction output" ∧
    (runSweep "pure_tone" 1 mixEv1 cEv2 [gpC, gpA]).1.file = [LogLine.header] ∧
    (runSweep "pure_tone" 1 mixEv1 cEv2 [gpC, gpA]).1.evaluated = 1 :=
  ⟨rfl, rfl, rfl⟩

/-- Claim C5, amended: a grid point whose metric evaluates to NaN is
logged as a NaN row, never updates the running best record, and the loop
continues (no error); but a grid point whose external stage raises aborts
the sweep, because the loop body catches no exceptions. -/
theorem c5_amended (signal_id : String) (T : ℝ) (f : ℝ → ℝ)
    (ev1 : GridPoint → Except String (ℕ × ℕ)) (ev2 : GridPoint → FVal)
    (st : SweepState) (gp1 gp2 : GridPoint) (d : ℕ × ℕ) (e : String)
    (hif : set_if_fun signal_id T = some f)
    (h1 : ev1 gp1 = Except.ok d) (hnan : ev2 gp1 = FVal.nan)
    (h2 : ev1 gp2 = Except.error e) :
    gridStep signal_id T ev1 ev2 st gp1 =
      ({ st with evaluated := st.evaluated + 1,
                 file := st.file ++ [LogLine.row (mkRow gp1 d FVal.nan)] }, none) ∧
    gridStep signal_id T ev1 ev2 st gp2 =
      ({ st with evaluated := st.evaluated + 1 }, some e) := by
  constructor
  · rw [gridStep_ok signal_id T f ev1 ev2 st gp1 d hif h1, hnan]
    simp [optStep, flt_nan_left]
  · exact gridStep_err signal_id T ev1 ev2 st gp2 e h2

/-- Witness for c5_amended: point gpA yields NaN and is logged without an
update; point gpC raises and aborts. -/
theorem c5_amended_witness :
    set_if_fun "pure_tone" 1 = some pureToneFun ∧
    mixEv1 gpA = Except.ok (2, 3) ∧
    nanEv2 gpA = FVal.nan ∧
    mixEv1 gpC = Except.error "ValueError: malformed extraction output" ∧
    (gridStep "pure_tone" 1 mixEv1 nanEv2 initState gpA =
      ({ initState with
           evaluated := initState.evaluated + 1,
           file := initState.file ++ [LogLine.row (mkRow gpA (2, 3) FVal.nan)] },
        none) ∧
     gridStep "pure_tone" 1 mixEv1 nanEv2 initState gpC =
      ({ initState with evaluated := initState.evaluated + 1 },
        some "ValueError: malformed extraction output")) :=
  ⟨rfl, rfl, rfl, rfl,
    c5_amended "pure_tone" 1 pureToneFun mixEv1 nanEv2 initState gpA gpC (2, 3)
      "ValueError: malformed extraction output" rfl rfl rfl rfl⟩

/-- Claim C9: on any completed sweep the running best opt starts at
np.Inf, is replaced by a new measure exactly when that measure compares
strictly below it, is non-increasing from one grid point to the next, and
at every step is a lower bound of all comparable (non-NaN) measures seen
so far and is either still np.Inf or one of those measures - that is, it
is the minimum seen so far. -/
theorem c9_running_min (signal_id : String) (T : ℝ) (f : ℝ → ℝ)
    (ev1 : GridPoint → Except String (ℕ × ℕ)) (ev2 : GridPoint → FVal)
    (gps : List GridPoint) (gp2 : GridPoint)
    (hif : set_if_fun signal_id T = some f)
    (hok : (runSweep signal_id T ev1 ev2 (gps ++ [gp2])).2 = none) :
    initState.opt = FVal.inf ∧
    (runSweep signal_id T ev1 ev2 gps).1.opt = foldOpt (gps.map ev2) ∧
    (runSweep signal_id T ev1 ev2 (gps ++ [gp2])).1.opt =
      (if FVal.lt (ev2 gp2) (foldOpt (gps.map ev2)) then ev2 gp2
       else foldOpt (gps.map ev2)) ∧
    FVal.le ((runSweep signal_id T ev1 ev2 (gps ++ [gp2])).1.opt)
      ((runSweep signal_id T ev1 ev2 gps).1.opt) = true ∧
    (gps.map ev2).all (leOrNan (foldOpt (gps.map ev2))) = true ∧
    (foldOpt (gps.map ev2) = FVal.inf ∨ foldOpt (gps.map ev2) ∈ gps.map ev2) := by
  unfold runSweep at hok ⊢
  have hmain := runSweepAux_opt signal_id T f ev1 ev2 hif (gps ++ [gp2]) initState hok
  have happ := runSweepAux_append signal_id T ev1 ev2 gps [gp2] initState
  have hprefix : (runSweepAux signal_id T ev1 ev2 gps initState).2 = none := by
    rcases hpre : runSweepAux signal_id T ev1 ev2 gps initState with ⟨st1, e1⟩
    cases e1 with
    | none => rfl
    | some e =>
        exfalso
        rw [happ, hpre] at hok
        simp at hok
  have hopt2 : (runSweepAux signal_id T ev1 ev2 gps initState).1.opt
      = foldOpt (gps.map ev2) :=
    runSweepAux_opt signal_id T f ev1 ev2 hif gps initState hprefix
  have hopt3 : (runSweepAux signal_id T ev1 ev2 (gps ++ [gp2]) initState).1.opt
      = optStep (foldOpt (gps.map ev2)) (ev2 gp2) := by
    rw [hmain, List.map_append]
    exact foldOpt_append (gps.map ev2) (ev2 gp2)
  refine ⟨rfl, hopt2, ?_, ?_, ?_, ?_⟩
  · rw [hopt3]
    rfl
  · rw [hopt3, hopt2]
    exact optStep_le_left (ev2 gp2) (foldOpt_ne_nan (gps.map ev2))
  · refine List.all_eq_true.mpr ?_
    intro m hm
    by_cases hmn : m = FVal.nan
    · simp [leOrNan, hmn]
    · have hle : FVal.le (foldOpt (gps.map ev2)) m = true :=
        foldl_optStep_le_mem (gps.map ev2) FVal.inf m (by simp) hm hmn
      simp [leOrNan, hle]
  · exact foldl_optStep_mem (gps.map ev2) FVal.inf

/-- Witness for c9_running_min on the concrete two-point run. -/
theorem c9_running_min_witness :
    set_if_fun "pure_tone" 1 = some pureToneFun ∧
    (runSweep "pure_tone" 1 cEv1 cEv2 ([gpA] ++ [gpB])).2 = none ∧
    (initState.opt = FVal.inf ∧
     (runSweep "pure_tone" 1 cEv1 cEv2 [gpA]).1.opt = foldOpt ([gpA].map cEv2) ∧
     (runSweep "pure_tone" 1 cEv1 cEv2 ([gpA] ++ [gpB])).1.opt =
       (if FVal.lt (cEv2 gpB) (foldOpt ([gpA].map cEv2)) then cEv2 gpB
        else foldOpt ([gpA].map cEv2)) ∧
     FVal.le ((runSweep "pure_tone" 1 cEv1 cEv2 ([gpA] ++ [gpB])).1.opt)
       ((runSweep "pure_tone" 1 cEv1 cEv2 [gpA]).1.opt) = true ∧
     ([gpA].map cEv2).all (leOrNan (foldOpt ([gpA].map cEv2))) = true ∧
     (foldOpt ([gpA].map cEv2) = FVal.inf ∨ foldOpt ([gpA].map cEv2) ∈ [gpA].map cEv2)) :=
  ⟨rfl, rfl, c9_running_min "pure_tone" 1 pureToneFun cEv1 cEv2 [gpA] gpB rfl rfl⟩
